import Mathlib

/-!
# Verification of `replay_trajectory` (src/replay.py)

Shallow embedding of the core of `replay.py`: the `Trajectory` object with its
`closest_point_time` lookup, and the per-tick publishing step of `ReplayNode`.

Modelling conventions:
* Python floats are modelled as rationals (`ℚ`); `numpy.sqrt(numpy.power(e, 2))`
  is `|e|` exactly.
* Python's float `%` is a floored modulo (result has the sign of the divisor);
  it is modelled by `fmod a b = a - b * ⌊a / b⌋`, and raises
  `ZeroDivisionError` when the divisor is `0`.
* The time column `t` may contain the missing value `None` (the csv reader
  passes non-numeric fields through unchanged and `closest_point_time` checks
  `self._t[0] is None`), so times are `List (Option ℚ)`; the numeric columns
  `x`, `y`, `v` are `List ℚ` as the claims only exercise numeric values there.
* Fallible Python code (raised exceptions) is modelled with `Except`:
  `numpy.asarray(t)[0]` on an empty column raises `IndexError`; the explicit
  `raise ValueError` for a missing first timestamp is `missingTimestamps`;
  arithmetic on a column still containing `None` raises `TypeError`;
  `x % 0` and `argmin % 0` raise `ZeroDivisionError`; `numpy.argmin` of an
  empty array raises `ValueError` (`emptyArgmin`).
-/

/-- Errors that the modelled Python code can raise. -/
inductive ReplayError where
  | indexError
  | missingTimestamps
  | typeError
  | zeroDivisionError
  | emptyArgmin
  deriving DecidableEq, Repr

/-- Python's floored modulo on reals: `a % b = a - b * ⌊a / b⌋`.
For `b > 0` the result lies in `[0, b)`. -/
def fmod (a b : ℚ) : ℚ := a - b * ⌊a / b⌋

/-- First-occurrence argmin over a list of rationals, as computed by
`numpy.argmin` (which returns the index of the first occurrence of the
minimum).  On the empty list it returns `0` (numpy raises instead; the
caller guards that case). -/
def argminIdx : List ℚ → ℕ
  | [] => 0
  | [_] => 0
  | a :: b :: rest =>
      let j := argminIdx (b :: rest)
      if (b :: rest).getD j 0 < a then j + 1 else 0

/-- Sequence a list of optional rationals: `some` of the list of values when
every entry is present, `none` as soon as one entry is the missing value. -/
def seqList : List (Option ℚ) → Option (List ℚ)
  | [] => some []
  | none :: _ => none
  | some a :: rest => (seqList rest).map (a :: ·)

/-- The `Trajectory` object of `replay.py`: the stored columns `_x`, `_y`,
`_t`, `_v`, the derived `_t2 = t + [lap_time]` and `_lap_time`. -/
structure Trajectory where
  x : List ℚ
  y : List ℚ
  t : List (Option ℚ)
  t2 : List (Option ℚ)
  v : List ℚ
  lap_time : ℚ
  deriving DecidableEq, Repr

/-- Embedding of `Trajectory.__init__`: stores the four columns and the derived
`_t2 = numpy.asarray(t + [lap_time])`. The Python constructor contains no
validation and no `raise` statement, and on list inputs none of its
operations (`numpy.asarray`, list concatenation) can raise. -/
def mkTrajectory (x y : List ℚ) (t : List (Option ℚ)) (v : List ℚ)
    (lap_time : ℚ) : Trajectory :=
  ⟨x, y, t, t ++ [some lap_time], v, lap_time⟩

/-- Embedding of `Trajectory.__init__` seen as a fallible constructor: since the Python
code has no validation and no failing operation on list inputs, it always
returns the stored trajectory. -/
def tryMkTrajectory (x y : List ℚ) (t : List (Option ℚ)) (v : List ℚ)
    (lap_time : ℚ) : Except ReplayError Trajectory :=
  Except.ok (mkTrajectory x y t v lap_time)

/-- Embedding of `Trajectory.size`: `len(self._x)`. -/
def Trajectory.size (tr : Trajectory) : ℕ := tr.x.length

/-- The distance array `numpy.sqrt(numpy.power(ts - phase, 2))`, which is
exactly `|ts[k] - phase|` entrywise. -/
def distancesOf (ts : List ℚ) (phase : ℚ) : List ℚ :=
  ts.map (fun u => |u - phase|)

/-- The part of `Trajectory.closest_point_time` after the phase
`time % lap_time` has been computed: distance array, `argmin`, aliasing by
`% self.size`, and the final indexing `_distances[_min_i]`. -/
def closestAux (tr : Trajectory) (ts : List ℚ) (phase : ℚ) :
    Except ReplayError (ℚ × ℕ) :=
  let ds := distancesOf ts phase
  if ds.isEmpty then Except.error ReplayError.emptyArgmin
  else if tr.size = 0 then Except.error ReplayError.zeroDivisionError
  else
    let i := argminIdx ds % tr.size
    Except.ok (ds.getD i 0, i)

/-- Embedding of `Trajectory.closest_point_time(time)`:
```
if self._t[0] is None: raise ValueError(...)
_distances = numpy.sqrt(numpy.power(self._t2 - (time % self._lap_time), 2))
_min_i = numpy.argmin(_distances) % self.size
return _distances[_min_i], _min_i
```
Evaluation order of the failure points: `self._t[0]` (IndexError on an empty
column, then the `None` check), `time % lap_time` (ZeroDivisionError on a
zero lap time), the subtraction `self._t2 - phase` (TypeError when a `None`
remains in `_t2`), `argmin` (ValueError on an empty array — unreachable
since `_t2` always holds the appended lap time), `% self.size`
(ZeroDivisionError when `size == 0`). -/
def Trajectory.closest_point_time (tr : Trajectory) (time : ℚ) :
    Except ReplayError (ℚ × ℕ) :=
  match tr.t.head? with
  | none => Except.error ReplayError.indexError
  | some none => Except.error ReplayError.missingTimestamps
  | some (some _) =>
      if tr.lap_time = 0 then Except.error ReplayError.zeroDivisionError
      else
        match seqList tr.t2 with
        | none => Except.error ReplayError.typeError
        | some ts => closestAux tr ts (fmod time tr.lap_time)

/-- The odometry message assembled by `ReplayNode.loop`: frame id, the
current clock time used as the stamp, and the position of the chosen
trajectory point. -/
structure OdomMsg where
  frame_id : String
  stamp : ℚ
  pos_x : ℚ
  pos_y : ℚ
  deriving DecidableEq, Repr

/-- Embedding of `ReplayNode.loop`: reads the current clock time once, queries
`closest_point_time(cur_time.nanoseconds / 1e9)` with that absolute time,
fills one `Odometry` message (`frame_id`, `stamp = cur_time`,
`position.x = _x[index]`, `position.y = _y[index]`) and publishes it once.
`cur_time` is modelled directly in seconds. The returned list holds the
messages published during the tick. -/
def ReplayNode.loop (tr : Trajectory) (frame_id : String) (cur_time : ℚ) :
    Except ReplayError (List OdomMsg) :=
  match tr.closest_point_time cur_time with
  | Except.error e => Except.error e
  | Except.ok (_, index) =>
      match tr.x[index]?, tr.y[index]? with
      | some xv, some yv => Except.ok [⟨frame_id, cur_time, xv, yv⟩]
      | _, _ => Except.error ReplayError.indexError

/-- The tick-interval computation in `ReplayNode.__init__`:
`self.create_timer(1. / rate, self.loop)`. Division by a zero rate raises
`ZeroDivisionError`; any nonzero rate (negative included) produces the
interval `1 / rate` without error. -/
def tickInterval (rate : ℚ) : Except ReplayError ℚ :=
  if rate = 0 then Except.error ReplayError.zeroDivisionError
  else Except.ok (1 / rate)

/-- The construction contract stated by the spec (§4.1): nonempty columns of
equal length, positive lap duration, non-decreasing times starting at `0`.
This predicate follows the spec's words; the code performs none of these
checks. -/
def validInput (x y : List ℚ) (ts : List ℚ) (v : List ℚ) (lap : ℚ) : Prop :=
  x ≠ [] ∧ y.length = x.length ∧ ts.length = x.length ∧ v.length = x.length ∧
  0 < lap ∧ ts.Chain' (· ≤ ·) ∧ ts.head? = some 0

instance (x y ts v : List ℚ) (lap : ℚ) : Decidable (validInput x y ts v lap) := by
  unfold validInput
  infer_instance

/-- Variant of `ReplayNode.loop` following the spec's words (§4.2): the query time
is `elapsed = clock.now() - start_time`, the time elapsed since the loop
started, rather than the absolute clock reading. Used to compare the spec's
contract with the code's `ReplayNode.loop`. -/
def loopSpecElapsed (tr : Trajectory) (frame_id : String)
    (start_time cur_time : ℚ) : Except ReplayError (List OdomMsg) :=
  match tr.closest_point_time (cur_time - start_time) with
  | Except.error e => Except.error e
  | Except.ok (_, index) =>
      match tr.x[index]?, tr.y[index]? with
      | some xv, some yv => Except.ok [⟨frame_id, cur_time, xv, yv⟩]
      | _, _ => Except.error ReplayError.indexError

/-- The spec's concrete scenario (§8): `times = [0, 1, 2]`, positions
`[(0,0), (1,0), (2,0)]`, `lap_duration = 3` (velocities all `0`). -/
def exTraj : Trajectory :=
  mkTrajectory [0, 1, 2] [0, 0, 0] ([0, 1, 2].map some) [0, 0, 0] 3

/-! ## Basic lemmas about `fmod` -/

theorem fmod_eq_mul_fract {a b : ℚ} (hb : b ≠ 0) :
    fmod a b = b * Int.fract (a / b) := by
  unfold fmod Int.fract
  field_simp

theorem fmod_nonneg {b : ℚ} (hb : 0 < b) (a : ℚ) : 0 ≤ fmod a b := by
  rw [fmod_eq_mul_fract hb.ne']
  exact mul_nonneg hb.le (Int.fract_nonneg _)

theorem fmod_lt {b : ℚ} (hb : 0 < b) (a : ℚ) : fmod a b < b := by
  rw [fmod_eq_mul_fract hb.ne']
  calc b * Int.fract (a / b) < b * 1 :=
        (mul_lt_mul_left hb).2 (Int.fract_lt_one _)
    _ = b := mul_one b

theorem fmod_add_self {b : ℚ} (hb : b ≠ 0) (a : ℚ) :
    fmod (a + b) b = fmod a b := by
  unfold fmod
  have h : (a + b) / b = a / b + 1 := by field_simp
  rw [h, Int.floor_add_one]
  push_cast
  ring

/-! ## Lemmas about `argminIdx` -/

theorem argminIdx_nil : argminIdx [] = 0 := rfl

theorem argminIdx_singleton (a : ℚ) : argminIdx [a] = 0 := rfl

theorem argminIdx_cons_cons (a b : ℚ) (r : List ℚ) :
    argminIdx (a :: b :: r) =
      if (b :: r).getD (argminIdx (b :: r)) 0 < a then argminIdx (b :: r) + 1
      else 0 := rfl

theorem argminIdx_lt_length : (l : List ℚ) → l ≠ [] → argminIdx l < l.length
  | [_], _ => by simp [argminIdx_singleton]
  | a :: b :: r, _ => by
      have ih := argminIdx_lt_length (b :: r) (by simp)
      simp only [List.length_cons] at ih ⊢
      rw [argminIdx_cons_cons]
      by_cases h : (b :: r).getD (argminIdx (b :: r)) 0 < a
      · rw [if_pos h]; omega
      · rw [if_neg h]; omega

theorem argminIdx_getD_le : (l : List ℚ) → (j : ℕ) → j < l.length →
    l.getD (argminIdx l) 0 ≤ l.getD j 0
  | [a], j, hj => by
      have hj0 : j = 0 := by
        rw [List.length_singleton] at hj
        omega
      subst hj0
      rw [argminIdx_singleton]
  | a :: b :: r, j, hj => by
      rw [argminIdx_cons_cons]
      by_cases h : (b :: r).getD (argminIdx (b :: r)) 0 < a
      · rw [if_pos h, List.getD_cons_succ]
        cases j with
        | zero => rw [List.getD_cons_zero]; exact h.le
        | succ j' =>
            rw [List.getD_cons_succ]
            exact argminIdx_getD_le (b :: r) j'
              (by rw [List.length_cons] at hj; omega)
      · rw [if_neg h, List.getD_cons_zero]
        cases j with
        | zero => rw [List.getD_cons_zero]
        | succ j' =>
            rw [List.getD_cons_succ]
            have h1 : a ≤ (b :: r).getD (argminIdx (b :: r)) 0 := not_lt.mp h
            exact h1.trans (argminIdx_getD_le (b :: r) j'
              (by rw [List.length_cons] at hj; omega))

theorem argminIdx_getD_lt_of_lt : (l : List ℚ) → (j : ℕ) → j < argminIdx l →
    l.getD (argminIdx l) 0 < l.getD j 0
  | [], j, hj => by rw [argminIdx_nil] at hj; omega
  | [a], j, hj => by rw [argminIdx_singleton] at hj; omega
  | a :: b :: r, j, hj => by
      rw [argminIdx_cons_cons] at hj ⊢
      by_cases h : (b :: r).getD (argminIdx (b :: r)) 0 < a
      · rw [if_pos h] at hj
        rw [if_pos h, List.getD_cons_succ]
        cases j with
        | zero => rw [List.getD_cons_zero]; exact h
        | succ j' =>
            rw [List.getD_cons_succ]
            exact argminIdx_getD_lt_of_lt (b :: r) j' (by omega)
      · rw [if_neg h] at hj
        omega

/-! ## Lemmas about `seqList` and `distancesOf` -/

theorem seqList_map_some_concat (l : List ℚ) (b : ℚ) :
    seqList (l.map some ++ [some b]) = some (l ++ [b]) := by
  induction l with
  | nil => simp [seqList]
  | cons a l ih => simp [seqList, ih]

theorem distancesOf_length (ts : List ℚ) (phase : ℚ) :
    (distancesOf ts phase).length = ts.length := by
  simp [distancesOf]

theorem distancesOf_nonneg (ts : List ℚ) (phase : ℚ) :
    ∀ a ∈ distancesOf ts phase, 0 ≤ a := by
  intro a ha
  obtain ⟨u, _, rfl⟩ := List.mem_map.mp ha
  exact abs_nonneg _

theorem getD_nonneg (l : List ℚ) (hl : ∀ a ∈ l, 0 ≤ a) (i : ℕ) :
    0 ≤ l.getD i 0 := by
  induction l generalizing i with
  | nil => simp
  | cons a l ih =>
      cases i with
      | zero => exact hl a (by simp)
      | succ i' =>
          simp only [List.getD_cons_succ]
          exact ih (fun b hb => hl b (by simp [hb])) i'

/-! ## Running `closest_point_time` on well-formed data -/

theorem closest_point_time_run (tr : Trajectory) (q : ℚ) (c : ℚ)
    (ts : List ℚ)
    (hhead : tr.t.head? = some (some c))
    (hlap : tr.lap_time ≠ 0)
    (hseq : seqList tr.t2 = some ts)
    (hts : ts ≠ [])
    (hsize : tr.size ≠ 0) :
    tr.closest_point_time q =
      Except.ok
        ((distancesOf ts (fmod q tr.lap_time)).getD
          (argminIdx (distancesOf ts (fmod q tr.lap_time)) % tr.size) 0,
         argminIdx (distancesOf ts (fmod q tr.lap_time)) % tr.size) := by
  have hne : (distancesOf ts (fmod q tr.lap_time)).isEmpty = false := by
    simp [List.isEmpty_iff, distancesOf, hts]
  simp [Trajectory.closest_point_time, hhead, hlap, hseq, closestAux, hne,
    hsize]

theorem size_mkTrajectory (x y : List ℚ) (t : List (Option ℚ)) (v : List ℚ)
    (lap : ℚ) : (mkTrajectory x y t v lap).size = x.length := rfl

theorem closest_point_time_valid (x y ts v : List ℚ) (lap : ℚ)
    (h : validInput x y ts v lap) (q : ℚ) :
    (mkTrajectory x y (ts.map some) v lap).closest_point_time q =
      Except.ok
        ((distancesOf (ts ++ [lap]) (fmod q lap)).getD
          (argminIdx (distancesOf (ts ++ [lap]) (fmod q lap)) % x.length) 0,
         argminIdx (distancesOf (ts ++ [lap]) (fmod q lap)) % x.length) := by
  obtain ⟨hx, hy, ht, hv, hlap, hchain, hhead⟩ := h
  exact closest_point_time_run (mkTrajectory x y (ts.map some) v lap) q 0
    (ts ++ [lap])
    (by
      show (ts.map some).head? = some (some 0)
      rw [List.head?_map, hhead]
      rfl)
    hlap.ne'
    (seqList_map_some_concat ts lap)
    (by simp)
    (by
      rw [size_mkTrajectory]
      exact (List.length_pos.mpr hx).ne')

theorem closest_point_time_congr (tr tr' : Trajectory) (ht : tr.t = tr'.t)
    (ht2 : tr.t2 = tr'.t2) (hl : tr.lap_time = tr'.lap_time)
    (hs : tr.size = tr'.size) (q : ℚ) :
    tr.closest_point_time q = tr'.closest_point_time q := by
  unfold Trajectory.closest_point_time closestAux
  rw [ht, ht2, hl, hs]

theorem closestAux_ne_missing (tr : Trajectory) (ts : List ℚ) (phase : ℚ) :
    closestAux tr ts phase ≠ Except.error ReplayError.missingTimestamps := by
  unfold closestAux
  by_cases h1 : (distancesOf ts phase).isEmpty <;>
    by_cases h2 : tr.size = 0 <;> simp [h1, h2]

/-! ## Claim theorems -/

/-- C1 (code bug evaluation): on the spec's concrete scenario
(`times = [0, 1, 2]`, `lap_duration = 3`), `closest_point_time(2.9)` returns
index `0` as the spec says, but time delta `2.9` instead of the minimal
distance `0.1`: the code indexes the distance array at the already aliased
index `argmin % size = 0`, not at the minimizing sentinel index `3`. -/
theorem closest_sample_sentinel_delta_endpoint_bug :
    exTraj.closest_point_time (29/10) = Except.ok (29/10, 0) ∧
    (29/10 : ℚ) ≠ 1/10 := by
  constructor
  · norm_num [Trajectory.closest_point_time, exTraj, mkTrajectory, seqList,
      closestAux, distancesOf, argminIdx, fmod, Trajectory.size, List.getD,
      abs_of_nonneg, abs_of_nonpos]
  · norm_num

/-- C2 (counterexample): construction does not fail on invalid input — with
empty columns (`N == 0`) and `lap_duration = 0`, every spec-side validity
condition is violated, yet `Trajectory.__init__` succeeds. -/
theorem construction_accepts_invalid_input :
    ¬ validInput [] [] [] [] 0 ∧
    ∃ tr, tryMkTrajectory [] [] [] [] 0 = Except.ok tr := by
  constructor
  · intro h
    exact h.1 rfl
  · exact ⟨_, rfl⟩

/-- C2 (amended): `Trajectory.__init__` performs no validation at all: on any
input it succeeds, storing the four columns unchanged together with the
derived `_t2 = t + [lap_time]`; no `InvalidTrajectory` error exists. -/
theorem construction_never_fails (x y : List ℚ) (t : List (Option ℚ))
    (v : List ℚ) (lap : ℚ) :
    ∃ tr, tryMkTrajectory x y t v lap = Except.ok tr ∧
      tr.x = x ∧ tr.y = y ∧ tr.t = t ∧ tr.v = v ∧ tr.lap_time = lap ∧
      tr.t2 = t ++ [some lap] :=
  ⟨mkTrajectory x y t v lap, rfl, rfl, rfl, rfl, rfl, rfl, rfl⟩

/-- C3 (counterexample): a negative tick rate is accepted without any error:
`rate = -1` yields the tick interval `1 / (-1) = -1`, contradicting the claim
that every `rate_hz <= 0` fails before the loop starts. -/
theorem negative_rate_accepted :
    (-1 : ℚ) < 0 ∧ tickInterval (-1) = Except.ok (-1) := by
  constructor
  · norm_num
  · norm_num [tickInterval]

/-- C3 (amended): the tick-interval computation `1. / rate` in
`ReplayNode.__init__` fails only for `rate == 0` (a `ZeroDivisionError`, not
a dedicated `InvalidRate` error); every nonzero rate, negative rates
included, yields the interval `1 / rate` without error. -/
theorem tick_interval_fails_only_on_zero_rate :
    (∀ rate : ℚ, rate ≠ 0 →
      ∃ iv, tickInterval rate = Except.ok iv ∧ iv * rate = 1) ∧
    tickInterval 0 = Except.error ReplayError.zeroDivisionError := by
  constructor
  · intro r hr
    refine ⟨1 / r, ?_, ?_⟩
    · simp [tickInterval, hr]
    · field_simp
  · simp [tickInterval]

/-- C3 (witness): the amended theorem applied at the concrete rate `-2`. -/
theorem tick_interval_fails_only_on_zero_rate_witness :
    ∃ iv, tickInterval (-2) = Except.ok iv ∧ iv * (-2) = 1 :=
  tick_interval_fails_only_on_zero_rate.1 (-2) (by norm_num)

/-- C6: exact periodicity of the lookup — for every trajectory (valid ones
included) and every query time, `closest_point_time (t + lap_time)` agrees
with `closest_point_time t` in both components, because the floored modulo
satisfies `fmod (t + lap) lap = fmod t lap`. -/
theorem closest_sample_periodic (tr : Trajectory) (q : ℚ) :
    tr.closest_point_time (q + tr.lap_time) = tr.closest_point_time q := by
  cases ht : tr.t.head? with
  | none => simp [Trajectory.closest_point_time, ht]
  | some o =>
      cases o with
      | none => simp [Trajectory.closest_point_time, ht]
      | some c =>
          by_cases hl : tr.lap_time = 0
          · simp [Trajectory.closest_point_time, ht, hl]
          · simp [Trajectory.closest_point_time, ht, hl, fmod_add_self hl]

/-- C10: the missing-timestamps `ValueError` is raised by
`closest_point_time` exactly when the first entry of the stored time column
is the missing value — the check reads only index `0`, so later missing
entries never trigger it — and construction raises no error for missing time
data. -/
theorem missing_timestamps_iff_first_entry_none (tr : Trajectory) (q : ℚ) :
    (tr.closest_point_time q = Except.error ReplayError.missingTimestamps ↔
      tr.t.head? = some none) ∧
    tryMkTrajectory tr.x tr.y tr.t tr.v tr.lap_time =
      Except.ok (mkTrajectory tr.x tr.y tr.t tr.v tr.lap_time) := by
  refine ⟨?_, rfl⟩
  cases ht : tr.t.head? with
  | none => simp [Trajectory.closest_point_time, ht]
  | some o =>
      cases o with
      | none => simp [Trajectory.closest_point_time, ht]
      | some c =>
          simp only [Trajectory.closest_point_time, ht]
          constructor
          · intro hcontra
            exfalso
            by_cases hl : tr.lap_time = 0
            · simp [hl] at hcontra
            · simp only [hl, if_false] at hcontra
              cases hs : seqList tr.t2 with
              | none => rw [hs] at hcontra; simp at hcontra
              | some ts =>
                  rw [hs] at hcontra
                  exact closestAux_ne_missing tr ts _ hcontra
          · intro hcontra
            simp at hcontra

/-- C4: for every validly constructed trajectory the lookup is total — the
floored modulo places the phase in `[0, lap_duration)` even for negative or
large query times, and `closest_point_time` returns a result rather than an
error for every rational query time. -/
theorem closest_sample_total_on_valid (x y ts v : List ℚ) (lap : ℚ)
    (h : validInput x y ts v lap) (q : ℚ) :
    0 ≤ fmod q lap ∧ fmod q lap < lap ∧
    ∃ d i, (mkTrajectory x y (ts.map some) v lap).closest_point_time q =
        Except.ok (d, i) := by
  have hlap : 0 < lap := h.2.2.2.2.1
  exact ⟨fmod_nonneg hlap q, fmod_lt hlap q, _, _,
    closest_point_time_valid x y ts v lap h q⟩

/-- C4 (witness): the total-lookup theorem applied to the spec's concrete
scenario at the negative query time `-1/10`, which resolves (to index `0`)
instead of raising an error. -/
theorem closest_sample_total_on_valid_witness :
    0 ≤ fmod (-1/10) 3 ∧ fmod (-1/10) 3 < 3 ∧
    ∃ d i, (mkTrajectory [0, 1, 2] [0, 0, 0] ([0, 1, 2].map some) [0, 0, 0]
        3).closest_point_time (-1/10) = Except.ok (d, i) :=
  closest_sample_total_on_valid [0, 1, 2] [0, 0, 0] [0, 1, 2] [0, 0, 0] 3
    (by
      refine ⟨by simp, rfl, rfl, rfl, by norm_num, ?_, rfl⟩
      norm_num [List.chain'_cons])
    (-1/10)

/-- C5: for every validly constructed trajectory, the index returned by
`closest_point_time` is strictly below the number `N` of samples and the
returned time delta is non-negative. -/
theorem closest_sample_index_bound_delta_nonneg (x y ts v : List ℚ)
    (lap : ℚ) (h : validInput x y ts v lap) (q d : ℚ) (i : ℕ)
    (hok : (mkTrajectory x y (ts.map some) v lap).closest_point_time q =
      Except.ok (d, i)) :
    i < x.length ∧ 0 ≤ d := by
  have hxlen : 0 < x.length := List.length_pos.mpr h.1
  rw [closest_point_time_valid x y ts v lap h q] at hok
  simp only [Except.ok.injEq, Prod.mk.injEq] at hok
  obtain ⟨hd, hi⟩ := hok
  subst hd
  subst hi
  constructor
  · exact Nat.mod_lt _ hxlen
  · exact getD_nonneg _ (distancesOf_nonneg _ _) _

/-- C5 (witness): the index-bound theorem applied to the spec's concrete
scenario at query time `0`, where the lookup returns delta `0` and index
`0`. -/
theorem closest_sample_index_bound_delta_nonneg_witness :
    (0 : ℕ) < ([0, 1, 2] : List ℚ).length ∧ (0 : ℚ) ≤ 0 :=
  closest_sample_index_bound_delta_nonneg [0, 1, 2] [0, 0, 0] [0, 1, 2]
    [0, 0, 0] 3
    (by
      refine ⟨by simp, rfl, rfl, rfl, by norm_num, ?_, rfl⟩
      norm_num [List.chain'_cons])
    0 0 0
    (by
      norm_num [Trajectory.closest_point_time, mkTrajectory, seqList,
        closestAux, distancesOf, argminIdx, fmod, Trajectory.size, List.getD,
        abs_of_nonneg, abs_of_nonpos])

/-- C8: the scan selects the first occurrence of the minimal distance: the
lookup returns `(ds[k % N], k % N)` for an index `k` into the wrapped-time
distance array that attains the minimum and is strictly smaller (in
distance) than every earlier index, i.e. ties are broken towards the
smallest index before the `mod N` aliasing is applied. -/
theorem closest_sample_tie_break_first (x y ts v : List ℚ) (lap : ℚ)
    (h : validInput x y ts v lap) (q : ℚ) :
    ∃ k,
      (∀ j, j < (distancesOf (ts ++ [lap]) (fmod q lap)).length →
        (distancesOf (ts ++ [lap]) (fmod q lap)).getD k 0 ≤
          (distancesOf (ts ++ [lap]) (fmod q lap)).getD j 0) ∧
      (∀ j, j < k →
        (distancesOf (ts ++ [lap]) (fmod q lap)).getD k 0 <
          (distancesOf (ts ++ [lap]) (fmod q lap)).getD j 0) ∧
      (mkTrajectory x y (ts.map some) v lap).closest_point_time q =
        Except.ok
          ((distancesOf (ts ++ [lap]) (fmod q lap)).getD (k % x.length) 0,
           k % x.length) :=
  ⟨argminIdx (distancesOf (ts ++ [lap]) (fmod q lap)),
    fun j hj => argminIdx_getD_le _ j hj,
    fun j hj => argminIdx_getD_lt_of_lt _ j hj,
    closest_point_time_valid x y ts v lap h q⟩

/-- C8 (witness): the tie-break theorem applied to the spec's concrete
scenario at query time `1`. -/
theorem closest_sample_tie_break_first_witness :
    ∃ k,
      (∀ j, j < (distancesOf ([0, 1, 2] ++ [3]) (fmod 1 3)).length →
        (distancesOf ([0, 1, 2] ++ [3]) (fmod 1 3)).getD k 0 ≤
          (distancesOf ([0, 1, 2] ++ [3]) (fmod 1 3)).getD j 0) ∧
      (∀ j, j < k →
        (distancesOf ([0, 1, 2] ++ [3]) (fmod 1 3)).getD k 0 <
          (distancesOf ([0, 1, 2] ++ [3]) (fmod 1 3)).getD j 0) ∧
      (mkTrajectory [0, 1, 2] [0, 0, 0] (([0, 1, 2] : List ℚ).map some)
          [0, 0, 0] 3).closest_point_time 1 =
        Except.ok
          ((distancesOf ([0, 1, 2] ++ [3]) (fmod 1 3)).getD
            (k % ([0, 1, 2] : List ℚ).length) 0,
           k % ([0, 1, 2] : List ℚ).length) :=
  closest_sample_tie_break_first [0, 1, 2] [0, 0, 0] [0, 1, 2] [0, 0, 0] 3
    (by
      refine ⟨by simp, rfl, rfl, rfl, by norm_num, ?_, rfl⟩
      norm_num [List.chain'_cons])
    1

/-- C9: the velocity column is never consumed by the lookup — two
trajectories built from the same time column and lap duration and the same
number of samples, but arbitrary (even different) velocity and position
values, give identical `closest_point_time` results at every query time. -/
theorem closest_sample_ignores_velocities (x₁ y₁ v₁ x₂ y₂ v₂ : List ℚ)
    (t : List (Option ℚ)) (lap : ℚ) (hlen : x₁.length = x₂.length) (q : ℚ) :
    (mkTrajectory x₁ y₁ t v₁ lap).closest_point_time q =
      (mkTrajectory x₂ y₂ t v₂ lap).closest_point_time q :=
  closest_point_time_congr (mkTrajectory x₁ y₁ t v₁ lap)
    (mkTrajectory x₂ y₂ t v₂ lap) rfl rfl rfl hlen q

/-- C9 (witness): the velocity-independence theorem applied to two concrete
trajectories that differ in every velocity entry. -/
theorem closest_sample_ignores_velocities_witness :
    (mkTrajectory [0, 1] [0, 0] ([0, 1].map some) [5, 6]
        2).closest_point_time (1/2) =
      (mkTrajectory [0, 1] [3, 4] ([0, 1].map some) [7, 8]
        2).closest_point_time (1/2) :=
  closest_sample_ignores_velocities [0, 1] [0, 0] [5, 6] [0, 1] [3, 4] [7, 8]
    (([0, 1] : List ℚ).map some) 2 rfl (1/2)

theorem getElem?_eq_some_getD (l : List ℚ) (i : ℕ) (h : i < l.length) :
    l[i]? = some (l.getD i 0) := by
  rw [List.getElem?_eq_getElem h, List.getD_eq_getElem l 0 h]

/-- C7 (counterexample): the tick does not query the trajectory at the time
elapsed since the loop started. With the spec's concrete scenario, a loop
started at clock time `1` and ticking at clock time `1` (elapsed `0`) would
emit the position of index `0` under the claim's `elapsed`-based contract,
but the code queries the absolute clock time `1` and emits the position of
index `1`. -/
theorem loop_absolute_time_cex :
    ReplayNode.loop exTraj "map" 1 = Except.ok [⟨"map", 1, 1, 0⟩] ∧
    loopSpecElapsed exTraj "map" 1 1 = Except.ok [⟨"map", 1, 0, 0⟩] ∧
    ReplayNode.loop exTraj "map" 1 ≠ loopSpecElapsed exTraj "map" 1 1 := by
  have h1 : ReplayNode.loop exTraj "map" 1 = Except.ok [⟨"map", 1, 1, 0⟩] := by
    norm_num [ReplayNode.loop, Trajectory.closest_point_time, exTraj,
      mkTrajectory, seqList, closestAux, distancesOf, argminIdx, fmod,
      Trajectory.size, List.getD, abs_of_nonneg, abs_of_nonpos]
  have h2 : loopSpecElapsed exTraj "map" 1 1 = Except.ok [⟨"map", 1, 0, 0⟩] := by
    norm_num [loopSpecElapsed, Trajectory.closest_point_time, exTraj,
      mkTrajectory, seqList, closestAux, distancesOf, argminIdx, fmod,
      Trajectory.size, List.getD, abs_of_nonneg, abs_of_nonpos]
  refine ⟨h1, h2, ?_⟩
  rw [h1, h2]
  simp

/-- C7 (amended): on each tick the loop queries `closest_point_time` at the
absolute clock reading (no `start_time` is subtracted) and publishes exactly
one message, carrying the position of the returned index and the same clock
reading as its stamp — no buffering, no extra emissions. -/
theorem loop_single_emit (x y ts v : List ℚ) (lap : ℚ) (f : String)
    (h : validInput x y ts v lap) (cur : ℚ) :
    ∃ d i, (mkTrajectory x y (ts.map some) v lap).closest_point_time cur =
        Except.ok (d, i) ∧
      ReplayNode.loop (mkTrajectory x y (ts.map some) v lap) f cur =
        Except.ok [⟨f, cur, x.getD i 0, y.getD i 0⟩] := by
  have hrun := closest_point_time_valid x y ts v lap h cur
  refine ⟨_, _, hrun, ?_⟩
  have hxlen : 0 < x.length := List.length_pos.mpr h.1
  have hi : argminIdx (distancesOf (ts ++ [lap]) (fmod cur lap)) % x.length
      < x.length := Nat.mod_lt _ hxlen
  have hx : x[argminIdx (distancesOf (ts ++ [lap]) (fmod cur lap)) %
      x.length]? = some (x.getD (argminIdx (distancesOf (ts ++ [lap])
        (fmod cur lap)) % x.length) 0) :=
    getElem?_eq_some_getD x _ hi
  have hy : y[argminIdx (distancesOf (ts ++ [lap]) (fmod cur lap)) %
      x.length]? = some (y.getD (argminIdx (distancesOf (ts ++ [lap])
        (fmod cur lap)) % x.length) 0) :=
    getElem?_eq_some_getD y _ (by rw [h.2.1]; exact hi)
  unfold ReplayNode.loop
  rw [hrun]
  simp only [mkTrajectory, hx, hy]

/-- C7 (witness): the amended per-tick theorem applied to the spec's
concrete scenario at clock time `0`. -/
theorem loop_single_emit_witness :
    ∃ d i, (mkTrajectory [0, 1, 2] [0, 0, 0]
        (([0, 1, 2] : List ℚ).map some) [0, 0, 0] 3).closest_point_time 0 =
        Except.ok (d, i) ∧
      ReplayNode.loop (mkTrajectory [0, 1, 2] [0, 0, 0]
          (([0, 1, 2] : List ℚ).map some) [0, 0, 0] 3) "map" 0 =
        Except.ok [⟨"map", 0, ([0, 1, 2] : List ℚ).getD i 0,
          ([0, 0, 0] : List ℚ).getD i 0⟩] :=
  loop_single_emit [0, 1, 2] [0, 0, 0] [0, 1, 2] [0, 0, 0] 3 "map"
    (by
      refine ⟨by simp, rfl, rfl, rfl, by norm_num, ?_, rfl⟩
      norm_num [List.chain'_cons])
    0
